import Mathlib

/-!
Verification of the freshkart order backend (`src/index.js`).

The model is a shallow embedding of the request handlers and of the
`extractOrder` routine.  JavaScript strings are modelled as `List Char`;
the external completion service is modelled as a stream of per-call
outcomes (`Nat → Outcome`); `JSON.parse` is an abstract parameter
`parse : List Char → Option α` (its success/failure is all the code
observes); sheet cells written by the append path are a small value type
`Cell` (string / number / JS `undefined`), while cells read back from the
sheet are strings, as the sheets API returns them.
-/

/-- JS `String.prototype.trim`: drop whitespace from both ends. -/
def trimChars (cs : List Char) : List Char :=
  ((cs.dropWhile Char.isWhitespace).reverse.dropWhile Char.isWhitespace).reverse

/-- Fuel-indexed scanner removing every occurrence of `pat`, left to right,
continuing after each removed occurrence — the semantics of
`s.replace(/pat/g, "")` for a literal pattern.  Fuel is the list length. -/
def stripSubAux (pat : List Char) : Nat → List Char → List Char
  | 0, cs => cs
  | _ + 1, [] => []
  | fuel + 1, c :: cs =>
    if pat.isPrefixOf (c :: cs) then stripSubAux pat fuel (cs.drop (pat.length - 1))
    else c :: stripSubAux pat fuel cs

/-- Remove every occurrence of `pat` from `cs` (JS global replace by `""`). -/
def stripSub (pat : List Char) (cs : List Char) : List Char :=
  stripSubAux pat cs.length cs

/-- The characters of the opening fence marker replaced first in the source. -/
def fenceJsonChars : List Char := "```json".toList

/-- The characters of the plain fence marker replaced second in the source. -/
def fenceChars : List Char := "```".toList

/-- Index of the first occurrence of `c`, if any. -/
def firstIdx (c : Char) : List Char → Option Nat
  | [] => none
  | x :: xs => if x = c then some 0 else (firstIdx c xs).map (· + 1)

/-- Index of the last occurrence of `c`, if any. -/
def lastIdx (c : Char) (cs : List Char) : Option Nat :=
  (firstIdx c cs.reverse).map (fun r => cs.length - 1 - r)

/-- The substring matched by the greedy regex `/\x7b[\s\S]*\x7d/`: from the
first opening brace to the last closing brace, provided the latter comes
after the former; `none` when the regex does not match. -/
def braceSpan (cs : List Char) : Option (List Char) :=
  match firstIdx '\x7b' cs, lastIdx '\x7d' cs with
  | some i, some j => if i < j then some ((cs.drop i).take (j - i + 1)) else none
  | _, _ => none

/-- The response text after `trim`, removal of all fence markers (first the
```json marker, then the bare ``` marker, as in the source), and a final
`trim`. -/
def stripped (text : List Char) : List Char :=
  trimChars (stripSub fenceChars (stripSub fenceJsonChars (trimChars text)))

/-- The JSON payload candidate: the brace-to-brace match when present,
otherwise the whole stripped text (`jsonMatch ? jsonMatch[0] : text`). -/
def cleanse (text : List Char) : List Char :=
  match braceSpan (stripped text) with
  | some m => m
  | none => stripped text

/-- One call to the completion service either returns text, fails with the
rate-limit status (`error.status === 429`), or fails with any other error. -/
inductive Outcome where
  | success (text : List Char)
  | rateLimited
  | failure (msg : List Char)
deriving DecidableEq, Repr

/-- The errors `extractOrder` can throw: the terminal exhaustion error
(`"Gemini API exhausted or returned invalid JSON."`), a propagated
non-rate-limit service error, or a `JSON.parse` failure (rethrown because a
`SyntaxError` has no `status === 429`). -/
inductive ExtractError where
  | exhausted
  | serviceError (msg : List Char)
  | parseError
deriving DecidableEq, Repr

/-- The observable behaviour of one run of `extractOrder`: its result,
how many service calls it made, and the sleeps it performed (in seconds,
in order). -/
structure ExtractTrace (α : Type) where
  result : Except ExtractError α
  calls : Nat
  delays : List Nat
deriving Repr

/-- The body of `while (attempts < 3)` in `extractOrder`, with
`fuel = 3 - attempts`; `outcomes n` is the outcome of the `n`-th service
call and `parse` stands for `JSON.parse` restricted to success/failure. -/
def extractAux {α : Type} (parse : List Char → Option α) (outcomes : Nat → Outcome) :
    Nat → Nat → ExtractTrace α
  | _, 0 => ⟨Except.error ExtractError.exhausted, 0, []⟩
  | a, fuel + 1 =>
    match outcomes a with
    | Outcome.success text =>
      match parse (cleanse text) with
      | some v => ⟨Except.ok v, 1, []⟩
      | none => ⟨Except.error ExtractError.parseError, 1, []⟩
    | Outcome.failure msg => ⟨Except.error (ExtractError.serviceError msg), 1, []⟩
    | Outcome.rateLimited =>
      let r := extractAux parse outcomes (a + 1) fuel
      ⟨r.result, r.calls + 1, 5 :: r.delays⟩

/-- `extractOrder(message)`: up to 3 attempts starting at `attempts = 0`. -/
def extractOrder {α : Type} (parse : List Char → Option α) (outcomes : Nat → Outcome) :
    ExtractTrace α :=
  extractAux parse outcomes 0 3

/-- A value placed in a sheet cell by the append path: a JS string, a JS
number, or JS `undefined` (an absent object field). -/
inductive Cell where
  | str (s : List Char)
  | num (n : Int)
  | undef
deriving DecidableEq, Repr

/-- One element of `orderData.items` as the handler reads it: the fields the
row builder accesses.  A field absent from the underlying JS object is
`Cell.undef`. -/
structure LineItem where
  item : Cell
  quantity : Cell
  unit : Cell
  price : Cell
  total_price : Cell
  payment_mode : Cell
deriving DecidableEq, Repr

/-- The `items` field of the parsed order as the handler's guard sees it:
absent/falsy, present but not an array, or an actual array. -/
inductive ItemsField where
  | missing
  | nonArray
  | arr (xs : List LineItem)
deriving DecidableEq, Repr

/-- The parsed order object (`orderData`) with the fields the handler reads. -/
structure Order where
  customer_name : Cell
  payment_mode : Cell
  items : ItemsField
deriving DecidableEq, Repr

/-- One appended row, `orderData.items.map((it) => [...])`: note the source
reads the payment mode from the line item (`it.payment_mode`), not from the
order. -/
def orderRow (now : List Char) (od : Order) (it : LineItem) : List Cell :=
  [Cell.str now, it.item, it.quantity, it.unit, it.price, it.total_price,
   od.customer_name, Cell.str ("Pending".toList), it.payment_mode]

/-- The JSON body the POST handler responds with. -/
inductive RespBody where
  | errMissing
  | errParseItems
  | errCaught (e : ExtractError)
  | success (order : Order)
deriving DecidableEq, Repr

/-- The observable behaviour of one POST request: HTTP status, response
body, number of completion-service calls made, and the list of storage
append calls, each carrying the rows it appended. -/
structure PostResult where
  status : Nat
  body : RespBody
  completionCalls : Nat
  appendCalls : List (List (List Cell))
deriving DecidableEq, Repr

/-- The `app.post("/orders")` handler.  `message` is `req.body.message`
(`none` for an absent field); truthiness of a string is non-emptiness.
`parse` and `outcomes` abstract `JSON.parse` and the completion service as
in `extractOrder`; `now` is the timestamp string.  The guard
`!orderData || !orderData.items || !Array.isArray(orderData.items)` is
modelled by the match on `items`: an `arr` value (even the empty array) is
truthy and an array, anything else fails the guard. -/
def postOrders (message : Option (List Char)) (parse : List Char → Option Order)
    (outcomes : Nat → Outcome) (now : List Char) : PostResult :=
  match message with
  | none => ⟨400, RespBody.errMissing, 0, []⟩
  | some s =>
    if s.isEmpty then ⟨400, RespBody.errMissing, 0, []⟩
    else
      let tr := extractOrder parse outcomes
      match tr.result with
      | Except.error e => ⟨500, RespBody.errCaught e, tr.calls, []⟩
      | Except.ok od =>
        match od.items with
        | ItemsField.arr xs =>
          ⟨200, RespBody.success od, tr.calls, [xs.map (orderRow now od)]⟩
        | _ => ⟨500, RespBody.errParseItems, tr.calls, []⟩

/-- One record of the GET response.  Field values are sheet cell strings. -/
structure OrderRecord where
  id : Nat
  datetime : List Char
  item : List Char
  quantity : List Char
  unit : List Char
  price : List Char
  total_price : List Char
  customer_name : List Char
  status : List Char
  payment_mode : List Char
deriving DecidableEq, Repr

/-- One record of `formatted`: `row[k] || ""` is `getD k []` because an
absent cell is `undefined` (falsy) and an empty-string cell stays empty. -/
def formatRow (index : Nat) (row : List (List Char)) : OrderRecord :=
  { id := index + 1
    datetime := row.getD 1 []
    item := row.getD 2 []
    quantity := row.getD 3 []
    unit := row.getD 4 []
    price := row.getD 5 []
    total_price := row.getD 6 []
    customer_name := row.getD 7 []
    status := row.getD 8 []
    payment_mode := row.getD 9 [] }

/-- `rows.slice(1).map((row, index) => ...)`: indexed map starting at `i`. -/
def formatRowsAux (i : Nat) : List (List (List Char)) → List OrderRecord
  | [] => []
  | r :: rs => formatRow i r :: formatRowsAux (i + 1) rs

/-- The `app.get("/orders")` success path: `values` is
`response.data.values` (`none` when the API returns no values); an absent
or empty `rows` yields `orders: []`, otherwise the header row is skipped
and each remaining row is formatted positionally. -/
def getOrders (values : Option (List (List (List Char)))) : List OrderRecord :=
  match values with
  | none => []
  | some rows => if rows.isEmpty then [] else formatRowsAux 0 (rows.drop 1)

/-- The `k`-th field of a record, in the read path's column order
(1 = datetime … 9 = payment_mode), for stating per-column facts. -/
def recField (r : OrderRecord) : Nat → List Char
  | 1 => r.datetime
  | 2 => r.item
  | 3 => r.quantity
  | 4 => r.unit
  | 5 => r.price
  | 6 => r.total_price
  | 7 => r.customer_name
  | 8 => r.status
  | 9 => r.payment_mode
  | _ => []

/-- A concrete extracted line item, shaped like the prompt's schema: the
line items of that schema carry no payment mode field, so reading it from
the item yields `undefined`. -/
def sampleItem : LineItem :=
  ⟨Cell.str ("chicken".toList), Cell.num 2, Cell.str ("kg".toList),
   Cell.num 180, Cell.num 360, Cell.undef⟩

/-- A concrete extracted order with its payment mode on the order object,
as the prompt's schema specifies. -/
def sampleOrder : Order :=
  ⟨Cell.str ("A".toList), Cell.str ("UPI".toList), ItemsField.arr [sampleItem]⟩

theorem extractAux_calls_le {α : Type} (parse : List Char → Option α)
    (outcomes : Nat → Outcome) : ∀ fuel a, (extractAux parse outcomes a fuel).calls ≤ fuel ∧
    (0 < fuel → 0 < (extractAux parse outcomes a fuel).calls) := by
  intro fuel
  induction fuel with
  | zero => intro a; simp [extractAux]
  | succ n ih =>
    intro a
    cases h : outcomes a with
    | success text =>
      cases hp : parse (cleanse text) <;>
        simp [extractAux, h, hp]
    | rateLimited =>
      have := ih (a + 1)
      simp [extractAux, h]
      omega
    | failure msg =>
      simp [extractAux, h]

/-- Claim C3: if the completion service rate-limits every call, `extractOrder`
makes exactly 3 service calls, sleeps 5 seconds after each rate-limited
attempt (in particular between consecutive attempts), and then fails with
the exhaustion error. -/
theorem extract_exhausted_after_three_rate_limits {α : Type}
    (parse : List Char → Option α) (outcomes : Nat → Outcome)
    (h : ∀ n, n < 3 → outcomes n = Outcome.rateLimited) :
    extractOrder parse outcomes =
      ⟨Except.error ExtractError.exhausted, 3, [5, 5, 5]⟩ := by
  have h0 := h 0 (by omega)
  have h1 := h 1 (by omega)
  have h2 := h 2 (by omega)
  simp [extractOrder, extractAux, h0, h1, h2]

/-- Witness for C3 at the constant rate-limited service. -/
theorem extract_exhausted_after_three_rate_limits_witness :
    extractOrder (fun _ => (none : Option Nat)) (fun _ => Outcome.rateLimited) =
      ⟨Except.error ExtractError.exhausted, 3, [5, 5, 5]⟩ :=
  extract_exhausted_after_three_rate_limits _ _ (fun _ _ => rfl)

/-- Claim C6: on a first-call error that is not a rate limit — a thrown
service error or a `JSON.parse` failure on the returned text —
`extractOrder` fails immediately with that error, after exactly 1 service
call and no sleep. -/
theorem extract_fails_fast_on_non_rate_limit {α : Type}
    (parse : List Char → Option α) (outcomes : Nat → Outcome) :
    (∀ msg, outcomes 0 = Outcome.failure msg →
      extractOrder parse outcomes =
        ⟨Except.error (ExtractError.serviceError msg), 1, []⟩) ∧
    (∀ text, outcomes 0 = Outcome.success text → parse (cleanse text) = none →
      extractOrder parse outcomes =
        ⟨Except.error ExtractError.parseError, 1, []⟩) := by
  constructor
  · intro msg h
    simp [extractOrder, extractAux, h]
  · intro text h hp
    simp [extractOrder, extractAux, h, hp]

/-- Witness for C6 at a service whose first call throws a generic error. -/
theorem extract_fails_fast_on_non_rate_limit_witness :
    extractOrder (fun _ => (none : Option Nat)) (fun _ => Outcome.failure ("boom".toList)) =
      ⟨Except.error (ExtractError.serviceError ("boom".toList)), 1, []⟩ :=
  (extract_fails_fast_on_non_rate_limit _ _).1 _ rfl

/-- Claim C7: a rate-limited first call followed by a successfully parsed
response makes `extractOrder` succeed with the parsed value after exactly 2
service calls (with the one 5-second sleep in between). -/
theorem extract_succeeds_on_second_attempt {α : Type}
    (parse : List Char → Option α) (outcomes : Nat → Outcome)
    (text : List Char) (v : α)
    (h0 : outcomes 0 = Outcome.rateLimited)
    (h1 : outcomes 1 = Outcome.success text)
    (hp : parse (cleanse text) = some v) :
    extractOrder parse outcomes = ⟨Except.ok v, 2, [5]⟩ := by
  simp [extractOrder, extractAux, h0, h1, hp]

/-- Witness for C7: rate limit, then a response cleansing to a parsed value. -/
theorem extract_succeeds_on_second_attempt_witness :
    extractOrder
      (fun cs => if cs = ("\x7ba:1\x7d".toList) then some 7 else (none : Option Nat))
      (fun n => if n = 0 then Outcome.rateLimited else Outcome.success ("\x7ba:1\x7d".toList)) =
      ⟨Except.ok 7, 2, [5]⟩ :=
  extract_succeeds_on_second_attempt _ _ _ _ rfl rfl (by decide)

/-- Claim C10: for every behaviour of the completion service and of the
parser, `extractOrder` terminates (it is a total function in this model)
having made between 1 and 3 service calls, and its result is a returned
value or a thrown error. -/
theorem extract_terminates_within_three_calls {α : Type}
    (parse : List Char → Option α) (outcomes : Nat → Outcome) :
    1 ≤ (extractOrder parse outcomes).calls ∧
    (extractOrder parse outcomes).calls ≤ 3 ∧
    ((∃ e, (extractOrder parse outcomes).result = Except.error e) ∨
     (∃ v, (extractOrder parse outcomes).result = Except.ok v)) := by
  have h := extractAux_calls_le parse outcomes 3 0
  refine ⟨h.2 (by omega), h.1, ?_⟩
  cases hr : (extractOrder parse outcomes).result with
  | error e => exact Or.inl ⟨e, rfl⟩
  | ok v => exact Or.inr ⟨v, rfl⟩

theorem firstIdx_eq_none (c : Char) : ∀ cs : List Char, c ∉ cs → firstIdx c cs = none
  | [], _ => rfl
  | x :: xs, h => by
    have hx : ¬ x = c := fun e => h (by simp [e])
    simp [firstIdx, hx, firstIdx_eq_none c xs (fun hm => h (List.mem_cons_of_mem _ hm))]

theorem firstIdx_append (c : Char) : ∀ (pre rest : List Char), c ∉ pre →
    firstIdx c (pre ++ c :: rest) = some pre.length
  | [], rest, _ => by simp [firstIdx]
  | x :: xs, rest, h => by
    have hx : ¬ x = c := fun e => h (by simp [e])
    have ih := firstIdx_append c xs rest (fun hm => h (List.mem_cons_of_mem _ hm))
    simp [firstIdx, hx, ih]

theorem take_length_add {α : Type} : ∀ (l₁ l₂ : List α) (n : Nat),
    (l₁ ++ l₂).take (l₁.length + n) = l₁ ++ l₂.take n
  | [], l₂, n => by simp
  | x :: xs, l₂, n => by
    rw [List.cons_append, List.length_cons, Nat.add_right_comm, List.take_succ_cons,
      take_length_add xs l₂ n]
    rfl

theorem drop_length_append {α : Type} : ∀ (l₁ l₂ : List α),
    (l₁ ++ l₂).drop l₁.length = l₂
  | [], _ => rfl
  | x :: xs, l₂ => by
    rw [List.cons_append, List.length_cons, List.drop_succ_cons, drop_length_append xs l₂]

theorem braceSpan_decomp (pre mid post : List Char)
    (hpre : '\x7b' ∉ pre) (hpost : '\x7d' ∉ post) :
    braceSpan (pre ++ '\x7b' :: (mid ++ '\x7d' :: post)) =
      some ('\x7b' :: (mid ++ ['\x7d'])) := by
  have h1 : firstIdx '\x7b' (pre ++ '\x7b' :: (mid ++ '\x7d' :: post)) = some pre.length :=
    firstIdx_append _ _ _ hpre
  have hrev : (pre ++ '\x7b' :: (mid ++ '\x7d' :: post)).reverse
      = post.reverse ++ '\x7d' :: (mid.reverse ++ '\x7b' :: pre.reverse) := by
    simp
  have hpostrev : '\x7d' ∉ post.reverse := by simpa using hpost
  have h2 : firstIdx '\x7d' ((pre ++ '\x7b' :: (mid ++ '\x7d' :: post)).reverse)
      = some post.length := by
    rw [hrev]
    simpa using firstIdx_append '\x7d' post.reverse (mid.reverse ++ '\x7b' :: pre.reverse) hpostrev
  have hlen : (pre ++ '\x7b' :: (mid ++ '\x7d' :: post)).length
      = pre.length + mid.length + post.length + 2 := by
    simp
    omega
  rw [braceSpan, lastIdx, h1, h2]
  simp only [Option.map_some']
  rw [hlen]
  have hij : pre.length < pre.length + mid.length + post.length + 2 - 1 - post.length := by
    omega
  rw [if_pos hij]
  have hdrop : (pre ++ '\x7b' :: (mid ++ '\x7d' :: post)).drop pre.length
      = '\x7b' :: (mid ++ '\x7d' :: post) := drop_length_append _ _
  have htake : pre.length + mid.length + post.length + 2 - 1 - post.length - pre.length + 1
      = mid.length + 2 := by omega
  rw [hdrop, htake]
  have : ('\x7b' :: (mid ++ '\x7d' :: post)).take (mid.length + 2)
      = '\x7b' :: (mid ++ ['\x7d']) := by
    rw [List.take_succ_cons]
    have := take_length_add mid ('\x7d' :: post) 1
    rw [Nat.add_comm mid.length 1, Nat.add_comm 1 mid.length] at this
    rw [this]
    rfl
  rw [this]

/-- Claim C5: the cleansing pipeline.  Whenever the fence-stripped, trimmed
response text decomposes as junk, then the first opening brace, some
middle text, the last closing brace, then junk, the parse candidate is
exactly the first-brace-to-last-brace substring, and a successful parse of
that candidate is returned as the extraction result (fenced and unfenced
valid JSON alike).  When the text contains no braces, the candidate is the
whole stripped trimmed text. -/
theorem extract_cleansing_pipeline :
    (∀ (text pre mid post : List Char),
      stripped text = pre ++ '\x7b' :: (mid ++ '\x7d' :: post) →
      '\x7b' ∉ pre → '\x7d' ∉ post →
      cleanse text = '\x7b' :: (mid ++ ['\x7d']) ∧
      ∀ {α : Type} (parse : List Char → Option α) (outcomes : Nat → Outcome) (v : α),
        outcomes 0 = Outcome.success text →
        parse ('\x7b' :: (mid ++ ['\x7d'])) = some v →
        extractOrder parse outcomes = ⟨Except.ok v, 1, []⟩) ∧
    (∀ text : List Char, '\x7b' ∉ stripped text → '\x7d' ∉ stripped text →
      cleanse text = stripped text) := by
  constructor
  · intro text pre mid post hdec hpre hpost
    have hc : cleanse text = '\x7b' :: (mid ++ ['\x7d']) := by
      rw [cleanse, hdec, braceSpan_decomp pre mid post hpre hpost]
    refine ⟨hc, ?_⟩
    intro α parse outcomes v h0 hp
    simp [extractOrder, extractAux, h0, hc, hp]
  · intro text h1 _
    rw [cleanse, braceSpan, firstIdx_eq_none _ _ h1]

/-- Witness for C5 on a fenced JSON-looking response. -/
theorem extract_cleansing_pipeline_witness :
    cleanse ("```json\n\x7ba:1\x7d\n```".toList) = '\x7b' :: ("a:1".toList ++ ['\x7d']) ∧
    extractOrder
      (fun cs => if cs = '\x7b' :: ("a:1".toList ++ ['\x7d']) then some 9 else (none : Option Nat))
      (fun _ => Outcome.success ("```json\n\x7ba:1\x7d\n```".toList)) =
      ⟨Except.ok 9, 1, []⟩ := by
  have h := extract_cleansing_pipeline.1 ("```json\n\x7ba:1\x7d\n```".toList) []
    ("a:1".toList) [] (by decide) (by decide) (by decide)
  exact ⟨h.1, h.2 _ _ _ rfl (by decide)⟩

/-- Claim C8: a missing or empty (falsy) `message` is rejected with status
400 and the error body, before any completion-service call and before any
storage call. -/
theorem post_orders_rejects_missing_message
    (parse : List Char → Option Order) (outcomes : Nat → Outcome) (now : List Char)
    (message : Option (List Char)) (h : message = none ∨ message = some []) :
    postOrders message parse outcomes now = ⟨400, RespBody.errMissing, 0, []⟩ := by
  rcases h with h | h <;> subst h <;> rfl

/-- Witness for C8 at an absent `message` field. -/
theorem post_orders_rejects_missing_message_witness :
    postOrders none (fun _ => none) (fun _ => Outcome.rateLimited) [] =
      ⟨400, RespBody.errMissing, 0, []⟩ :=
  post_orders_rejects_missing_message _ _ _ _ (Or.inl rfl)

/-- Counterexample to C4 as stated: when extraction yields an order with an
empty `items` array, the handler does not return 500 — the empty array is
truthy and is an array, so the guard passes and the handler answers 200
(after one storage append call carrying zero rows). -/
theorem post_orders_empty_items_counterexample :
    postOrders (some ("two kg chicken".toList))
      (fun _ => some ⟨Cell.str ("A".toList), Cell.undef, ItemsField.arr []⟩)
      (fun _ => Outcome.success []) ("t".toList) =
      ⟨200, RespBody.success ⟨Cell.str ("A".toList), Cell.undef, ItemsField.arr []⟩, 1, [[]]⟩ ∧
    (postOrders (some ("two kg chicken".toList))
      (fun _ => some ⟨Cell.str ("A".toList), Cell.undef, ItemsField.arr []⟩)
      (fun _ => Outcome.success []) ("t".toList)).status ≠ 500 := by
  exact ⟨rfl, by decide⟩

/-- Claim C4 as amended: a request whose message extracts to an order with
an empty `items` array is accepted — status 200 with the success body, and
exactly one batch append call is made, carrying an empty list of rows. -/
theorem post_orders_accepts_empty_items
    (parse : List Char → Option Order) (outcomes : Nat → Outcome) (now s : List Char)
    (hs : s.isEmpty = false) (od : Order)
    (hres : (extractOrder parse outcomes).result = Except.ok od)
    (hitems : od.items = ItemsField.arr []) :
    postOrders (some s) parse outcomes now =
      ⟨200, RespBody.success od, (extractOrder parse outcomes).calls, [[]]⟩ := by
  simp [postOrders, hs, hres, hitems]

/-- Witness for the amended C4. -/
theorem post_orders_accepts_empty_items_witness :
    postOrders (some ("m".toList))
      (fun _ => some ⟨Cell.str ("B".toList), Cell.str ("Cash".toList), ItemsField.arr []⟩)
      (fun _ => Outcome.success []) [] =
      ⟨200, RespBody.success ⟨Cell.str ("B".toList), Cell.str ("Cash".toList),
        ItemsField.arr []⟩, 1, [[]]⟩ :=
  post_orders_accepts_empty_items _ _ _ _ (by decide) _ rfl rfl

/-- Claim C2, evaluated at a failing input: for a successfully extracted
order the handler does build one row per line item and sends them in a
single batch append call, with the timestamp, item fields, customer name
and the fixed "Pending" status in the write-path positions — but the final
cell is the line item's `payment_mode` (`it.payment_mode`), which is
`undefined` for an item following the prompt's schema, not the order's
payment mode ("UPI" here). -/
theorem post_orders_row_payment_mode_from_item :
    postOrders (some ("order".toList)) (fun _ => some sampleOrder)
      (fun _ => Outcome.success []) ("t0".toList) =
      ⟨200, RespBody.success sampleOrder, 1,
        [[[Cell.str ("t0".toList), Cell.str ("chicken".toList), Cell.num 2,
           Cell.str ("kg".toList), Cell.num 180, Cell.num 360, Cell.str ("A".toList),
           Cell.str ("Pending".toList), Cell.undef]]]⟩ ∧
    Cell.undef ≠ sampleOrder.payment_mode := by
  exact ⟨rfl, by decide⟩

/-- Claim C1, evaluated at a failing input: reading back a sheet whose one
data row was laid out by the write path (timestamp in column 0, item in
column 1, …, payment mode in column 8) yields exactly one record with
`id = 1`, but its fields come from columns 1–9, one column to the right of
the write path's layout: `datetime` receives the item name and
`payment_mode` the always-absent column 9. -/
theorem get_orders_columns_shifted :
    getOrders (some [["header".toList],
      ["t0".toList, "chicken".toList, "2".toList, "kg".toList, "180".toList,
       "360".toList, "Alice".toList, "Pending".toList, "Cash".toList]]) =
      [{ id := 1, datetime := "chicken".toList, item := "2".toList,
         quantity := "kg".toList, unit := "180".toList, price := "360".toList,
         total_price := "Alice".toList, customer_name := "Pending".toList,
         status := "Cash".toList, payment_mode := [] }] ∧
    "chicken".toList ≠ "t0".toList := by
  exact ⟨rfl, by decide⟩

theorem formatRowsAux_length : ∀ (i : Nat) (l : List (List (List Char))),
    (formatRowsAux i l).length = l.length
  | _, [] => rfl
  | i, _ :: rs => by
    rw [formatRowsAux, List.length_cons, List.length_cons, formatRowsAux_length (i + 1) rs]

/-- Claim C9: the read path is total on rows of any shape — every record
field whose positional column (1–9, the read path's own layout) is absent
from the row defaults to the empty string, and mapping over the stored
rows always produces one record per data row. -/
theorem get_orders_tolerates_short_rows :
    (∀ (row : List (List Char)) (i k : Nat), 1 ≤ k → k ≤ 9 → row.length ≤ k →
      recField (formatRow i row) k = []) ∧
    (∀ rows : List (List (List Char)), (getOrders (some rows)).length = rows.length - 1) := by
  constructor
  · intro row i k h1 h9 hlen
    interval_cases k <;>
      exact List.getD_eq_default _ _ hlen
  · intro rows
    cases rows with
    | nil => rfl
    | cons r rs => simp [getOrders, formatRowsAux_length]

/-- Witness for C9 at the empty row. -/
theorem get_orders_tolerates_short_rows_witness :
    ([] : List (List Char)).length ≤ 1 ∧ recField (formatRow 0 []) 1 = [] :=
  ⟨by decide, get_orders_tolerates_short_rows.1 [] 0 1 (by decide) (by decide) (by decide)⟩
